import Mathlib

/-!
Shallow embedding of `suds/cache.py` (the suds caching module): the abstract
`Cache` interface, the pass-through `NoCache`, the file-backed `FileCache`
storage engine and its two codec subclasses `DocumentCache` and `ObjectCache`.

All cache entries of one instance live directly in one directory
(`self.location`), so the filesystem is modelled as the listing of that one
directory: a list of named entries (files or subdirectories).  Machinery that
Python leaves implicit is made explicit:

* raising an exception is modelled by `Except`: a primitive returning
  `Except String _ × World` either succeeds or raises, and always reports the
  world as it stands at that point (mutations made before a raise persist);
* an open file handle is modelled by a counter `openHandles`, incremented by
  every successful `open` and decremented by `close`, so that theorems can
  speak about handles left open by an operation;
* write failures of the environment (permissions, disk full) are modelled by
  the set `failWrites` of names whose open-for-write raises;
* `os.path.getctime` is the `ctime` field of an entry; `datetime.datetime.now()`
  is the field `now` (in seconds).

The `location` folder itself always exists in the model (the code creates it
lazily via `__mktmp`, whose failure is logged and swallowed), and the default
`location`/`log` plumbing is dropped: neither affects any behaviour proved
below.
-/

set_option linter.unusedVariables false

/-- One entry of the cache directory: a plain file or a subdirectory, with its
byte content (Python 2 `str` is a byte string, modelled by `String`) and its
creation timestamp as reported by `os.path.getctime`. -/
structure FSEntry where
  name : String
  isDir : Bool
  content : String
  ctime : Int
deriving Repr, DecidableEq

/-- The state the cache operates on: the listing of the cache directory, the
number of currently open file handles, the current clock, and the set of file
names on which opening for write raises an I/O error. -/
structure World where
  files : List FSEntry
  openHandles : Nat
  now : Int
  failWrites : List String
deriving Repr, DecidableEq

/-- Look a directory entry up by name (first match). -/
def fsLookup (files : List FSEntry) (n : String) : Option FSEntry :=
  files.find? (fun e => e.name == n)

/-- `os.remove(n)`: raises on a missing entry or on a directory, otherwise
deletes the file. -/
def osRemove (n : String) (w : World) : Except String Unit × World :=
  match fsLookup w.files n with
  | none => (.error "FileNotFoundError", w)
  | some e =>
    if e.isDir then (.error "IsADirectoryError", w)
    else (.ok (), { w with files := w.files.filter (fun x => x.name != n) })

/-- `open(n, "rb")` (or mode `"r"`) followed by the single `.read()` the code
performs: raises on a missing entry or a directory; on success yields the
whole content and leaves one more handle open. -/
def openRead (n : String) (w : World) : Except String String × World :=
  match fsLookup w.files n with
  | none => (.error "FileNotFoundError", w)
  | some e =>
    if e.isDir then (.error "IsADirectoryError", w)
    else (.ok e.content, { w with openHandles := w.openHandles + 1 })

/-- `open(n, "wb")` (or `"w"`): raises when the environment makes that name
unwritable or when a directory occupies it; otherwise truncates an existing
file or creates a fresh one (creation time = now) and leaves a handle open. -/
def openWrite (n : String) (w : World) : Except String Unit × World :=
  if w.failWrites.contains n then (.error "IOError", w)
  else
    match fsLookup w.files n with
    | some e =>
      if e.isDir then (.error "IsADirectoryError", w)
      else (.ok (), { w with
        files := w.files.map (fun x => if x.name == n then { x with content := "" } else x),
        openHandles := w.openHandles + 1 })
    | none =>
      (.ok (), { w with
        files := w.files ++ [{ name := n, isDir := false, content := "", ctime := w.now }],
        openHandles := w.openHandles + 1 })

/-- `f.write(data)` on the freshly opened (hence truncated or empty) file
named `n`: the single write the code performs per open. -/
def writeContent (n : String) (data : String) (w : World) : World :=
  { w with files := w.files.map (fun x => if x.name == n then { x with content := data } else x) }

/-- `f.close()`. -/
def closeHandle (w : World) : World := { w with openHandles := w.openHandles - 1 }

/-- `os.listdir(self.location)`: the entry names, snapshot before iteration. -/
def listdir (w : World) : List String := w.files.map FSEntry.name

/-- `os.path.isdir(os.path.join(self.location, n))`: `false` for a missing
entry. -/
def isdirIn (w : World) (n : String) : Bool :=
  match fsLookup w.files n with
  | some e => e.isDir
  | none => false

/-- `FileCache.fnprefix = "suds"` (the class variable). -/
def fnpref : String := "suds"

/-- Python's `str.startswith(pre)`: a structurally recursive prefix test on
the underlying character lists (so that it evaluates inside the kernel). -/
def startswith (s pre : String) : Bool := pre.data.isPrefixOf s.data

/-- `FileCache.units`. -/
def units : List String := ["months", "weeks", "days", "hours", "minutes", "seconds"]

/-- `self.duration`: a `(unit, value)` pair, `(None, 0)` by default. -/
abbrev Duration := Option String × Nat

/-- `FileCache.__filename(id)` relative to `location`:
`"%s-%s.%s" % (fnprefix, id, suffix)`. -/
def cacheFileName (id suffix : String) : String := fnpref ++ "-" ++ id ++ "." ++ suffix

/-- `FileCache.fnsuffix()`. -/
def FileCache.fnsuffix : String := "gcf"

/-- `DocumentCache.fnsuffix()`. -/
def DocumentCache.fnsuffix : String := "xml"

/-- `ObjectCache.fnsuffix()`. -/
def ObjectCache.fnsuffix : String := "px"

/-- `FileCache.__set_duration(**duration)`: acts only when exactly one keyword
was given (`len(duration) == 1`), raising when that keyword is not one of
`units`; with any other number of keywords the default `(None, 0)` is kept. -/
def set_duration (dur : List (String × Nat)) : Except String Duration :=
  match dur with
  | [arg] =>
    if units.contains arg.1 then .ok (some arg.1, arg.2)
    else .error "must be: (months, weeks, days, hours, minutes, seconds)"
  | _ => .ok (none, 0)

/-- Modelled from the collaborator `datetime.timedelta`: the duration of
`datetime.timedelta(**{unit: v})` in seconds.  `timedelta` accepts the
keywords `weeks`, `days`, `hours`, `minutes`, `seconds` (among others) but
not `months`: a `months` keyword raises `TypeError`, even though `"months"`
is listed in `FileCache.units`. -/
def timedeltaSecs : Option String → Nat → Except String Int
  | some "weeks", v => .ok (604800 * (v : Int))
  | some "days", v => .ok (86400 * (v : Int))
  | some "hours", v => .ok (3600 * (v : Int))
  | some "minutes", v => .ok (60 * (v : Int))
  | some "seconds", v => .ok (v : Int)
  | _, _ => .error "TypeError: invalid keyword argument for timedelta"

/-- `FileCache.__remove_if_expired(filename)`: a no-op when the configured
duration value is `< 1`; otherwise reads the file's creation time (raising
when the file is missing), builds the `timedelta` and deletes the file when
`created + timedelta < now` (strict comparison). -/
def remove_if_expired (d : Duration) (fname : String) (w : World) :
    Except String Unit × World :=
  if d.2 < 1 then (.ok (), w)
  else
    match fsLookup w.files fname with
    | none => (.error "getctime: FileNotFoundError", w)
    | some e =>
      match timedeltaSecs d.1 d.2 with
      | .error msg => (.error msg, w)
      | .ok delta =>
        if e.ctime + delta < w.now then osRemove fname w
        else (.ok (), w)

/-- The `for filename in os.listdir(...)` loop of `FileCache.clear`: skip
directories, remove every file whose name starts with `fnprefix`; a raise of
`os.remove` propagates (there is no handler in `clear`). -/
def clearLoop : List String → World → Except String World
  | [], w => .ok w
  | n :: ns, w =>
    if isdirIn w n then clearLoop ns w
    else if startswith n fnpref then
      match osRemove n w with
      | (.error e, _) => .error e
      | (.ok _, w') => clearLoop ns w'
    else clearLoop ns w

/-- `FileCache.clear()`. -/
def FileCache.clear (w : World) : Except String World := clearLoop (listdir w) w

/-- `FileCache._getf(id)`: resolve the filename, drop the entry if expired,
open it for reading; every raise inside is swallowed (`except Exception:
pass`) and yields `None`, keeping whatever state mutations happened before
the raise. -/
def FileCache.getf (d : Duration) (suffix id : String) (w : World) :
    Option String × World :=
  match remove_if_expired d (cacheFileName id suffix) w with
  | (.error _, w1) => (none, w1)
  | (.ok _, w1) =>
    match openRead (cacheFileName id suffix) w1 with
    | (.error _, w2) => (none, w2)
    | (.ok content, w2) => (some content, w2)

/-- `FileCache.get(id)`: read the file `_getf` opened, closing it in the
`finally`; when `_getf` yielded `None` the attribute access `f.read()` raises
and the outer `except Exception: pass` turns that into `None`. -/
def FileCache.get (d : Duration) (suffix id : String) (w : World) :
    Option String × World :=
  match FileCache.getf d suffix id w with
  | (none, w1) => (none, w1)
  | (some content, w1) => (some content, closeHandle w1)

/-- `FileCache.put(id, data)`: open for writing, write, close (in a
`finally`), and return `data`; any raise is logged and `data` is returned all
the same. -/
def FileCache.put (suffix id data : String) (w : World) : String × World :=
  match openWrite (cacheFileName id suffix) w with
  | (.error _, w1) => (data, w1)
  | (.ok _, w1) => (data, closeHandle (writeContent (cacheFileName id suffix) data w1))

/-- `FileCache.purge(id)`: `os.remove` with every raise swallowed. -/
def FileCache.purge (suffix id : String) (w : World) : World :=
  (osRemove (cacheFileName id suffix) w).2

/-- The `except Exception:` handler of `FileCache.__check_version`: clear the
cache and rewrite the `version` marker with the current software version.  A
raise inside this handler (enumeration failure in `clear`, unwritable marker)
propagates out of the constructor. -/
def versionRecover (ver : String) (w : World) : Except String World :=
  match FileCache.clear w with
  | .error e => .error e
  | .ok w1 =>
    match openWrite "version" w1 with
    | (.error e, _) => .error e
    | (.ok _, w2) => .ok (closeHandle (writeContent "version" ver w2))

/-- `FileCache.__check_version()`: read the `version` marker (closing the
handle in a `finally`) and compare it with the current software version
(`suds.__version__`, the parameter `ver`); on a mismatch, an unreadable
marker or a missing marker, clear the cache and rewrite the marker. -/
def check_version (ver : String) (w : World) : Except String World :=
  match openRead "version" w with
  | (.error _, w1) => versionRecover ver w1
  | (.ok content, w1) =>
    if content == ver then .ok (closeHandle w1)
    else versionRecover ver (closeHandle w1)

/-- `FileCache.__init__(location=..., **duration)`: record the duration
configuration (raising only as `__set_duration` does), then run the version
check, which may clear the directory.  Yields the configured duration and the
resulting directory state. -/
def FileCache.init (dur : List (String × Nat)) (ver : String) (w : World) :
    Except String (Duration × World) :=
  match set_duration dur with
  | .error e => .error e
  | .ok d =>
    match check_version ver w with
    | .error e => .error e
    | .ok w1 => .ok (d, w1)

/-- `DocumentCache.get(id)`: open via `_getf`; `None` means absent; otherwise
parse the content with the SAX parser collaborator `dec` (modelled from the
spec: it reconstructs a document tree from its serialized bytes, raising on
bytes it cannot parse).  On a parse raise the handle is closed, the entry
purged, and `None` returned; on success the parsed value is returned with the
handle left as it stands. -/
def DocumentCache.get {α : Type} (dec : String → Except String α) (d : Duration)
    (id : String) (w : World) : Option α × World :=
  match FileCache.getf d DocumentCache.fnsuffix id w with
  | (none, w1) => (none, w1)
  | (some content, w1) =>
    match dec content with
    | .ok v => (some v, w1)
    | .error _ => (none, FileCache.purge DocumentCache.fnsuffix id (closeHandle w1))

/-- `DocumentCache.put(id, object)` on a document-tree value (the
`isinstance(object, Element)` guard holds for every value of the tree type
`α`): serialize with the collaborator `enc` (modelled from the spec:
`suds.byte_str(str(object))`), store the bytes, and return the original
value. -/
def DocumentCache.put {α : Type} (enc : α → String) (id : String) (v : α)
    (w : World) : α × World :=
  (v, (FileCache.put DocumentCache.fnsuffix id (enc v) w).2)

/-- `ObjectCache.get(id)`: like the document codec but deserializing with the
pickle collaborator `dec` (modelled from the spec: it rebuilds the value from
its pickled bytes, raising on garbage). -/
def ObjectCache.get {α : Type} (dec : String → Except String α) (d : Duration)
    (id : String) (w : World) : Option α × World :=
  match FileCache.getf d ObjectCache.fnsuffix id w with
  | (none, w1) => (none, w1)
  | (some content, w1) =>
    match dec content with
    | .ok v => (some v, w1)
    | .error _ => (none, FileCache.purge ObjectCache.fnsuffix id (closeHandle w1))

/-- `ObjectCache.put(id, object)`: `data = pickle.dumps(object, protocol)`
runs before (outside) the storage engine's `try` block, so a raise of the
pickle collaborator `enc` (modelled from the spec and the collaborator's
documented behaviour: `pickle.dumps` raises on values it cannot serialize)
propagates to the caller; on success the bytes are stored and the original
value returned. -/
def ObjectCache.put {α : Type} (enc : α → Except String String) (id : String)
    (v : α) (w : World) : Except String (α × World) :=
  match enc v with
  | .error e => .error e
  | .ok data => .ok (v, (FileCache.put ObjectCache.fnsuffix id data w).2)

/-- `Cache.purge(id)` (the abstract base): `raise Exception("not-implemented")`. -/
def Cache.purge (id : String) : Except String Unit := .error "not-implemented"

/-- `Cache.clear()` (the abstract base): `raise Exception("not-implemented")`. -/
def Cache.clear : Except String Unit := .error "not-implemented"

/-- `NoCache.get(id)`: a bare `return`, i.e. `None`. -/
def NoCache.get (α : Type) (id : String) : Option α := none

/-- `NoCache.put(id, object)`: a bare `pass`, i.e. the call returns `None`,
not the stored value. -/
def NoCache.put {α : Type} (id : String) (v : α) : Option α := none

/-- `NoCache.purge(id)`: not overridden, inherited from `Cache`. -/
def NoCache.purge (id : String) : Except String Unit := Cache.purge id

/-- `NoCache.clear()`: not overridden, inherited from `Cache`. -/
def NoCache.clear : Except String Unit := Cache.clear

/-! ### Concrete collaborator instances and directory states

These are the concrete inputs that witnesses and counterexamples evaluate the
cache on. -/

/-- The predicate characterising which entries survive the `clear` loop run
over the name list `ns`: directories, files outside the `fnprefix` family,
and files the loop does not visit. -/
def clearKeeps (ns : List String) (e : FSEntry) : Bool :=
  e.isDir || !(startswith e.name fnpref) || !(ns.contains e.name)

/-- An empty cache directory. -/
def wEmpty : World := ⟨[], 0, 1000, []⟩

/-- A cache directory holding only a current version marker. -/
def wMarker : World := ⟨[⟨"version", false, "0.6", 1000⟩], 0, 1000, []⟩

/-- A directory with an entry of the `gcf` family created at time 0, observed
at time 1 — exactly the creation time plus one second. -/
def wBoundary : World := ⟨[⟨"suds-a.gcf", false, "hello", 0⟩], 0, 1, []⟩

/-- The entry `wBoundary` holds. -/
def eBoundary : FSEntry := ⟨"suds-a.gcf", false, "hello", 0⟩

/-- A directory holding one entry of each codec family filled with bytes no
codec accepts. -/
def wGarbage : World := ⟨[⟨"suds-a.xml", false, "garbage", 0⟩,
  ⟨"suds-a.px", false, "garbage", 0⟩], 0, 5, []⟩

/-- A directory holding one parseable document entry. -/
def wDoc : World := ⟨[⟨"suds-a.xml", false, "doc", 0⟩], 0, 5, []⟩

/-- A mixed directory: a prefixed file, a prefixed subdirectory, the version
marker and an unrelated file. -/
def wMix : World := ⟨[⟨"suds-a.gcf", false, "x", 0⟩, ⟨"sudsdir", true, "", 0⟩,
  ⟨"version", false, "0.9", 0⟩, ⟨"other.txt", false, "y", 0⟩], 0, 5, []⟩

/-- `wMix` after a `clear`: only the prefixed plain file is gone. -/
def wMixCleared : World := ⟨[⟨"sudsdir", true, "", 0⟩, ⟨"version", false, "0.9", 0⟩,
  ⟨"other.txt", false, "y", 0⟩], 0, 5, []⟩

/-- A directory holding one loadable pickled-object entry. -/
def wObj : World := ⟨[⟨"suds-a.px", false, "obj", 0⟩], 0, 5, []⟩

/-- A directory whose version marker path is occupied by a subdirectory (an
unreadable marker), next to one previously written entry. -/
def wDirMarker : World := ⟨[⟨"version", true, "", 0⟩, ⟨"suds-a.gcf", false, "x", 0⟩], 0, 5, []⟩

/-- A directory with a stale version marker that the environment makes
unwritable. -/
def wROMarker : World := ⟨[⟨"version", false, "0.9", 0⟩], 0, 5, ["version"]⟩

/-- Modelled from the spec and the collaborator's documented behaviour: a
deserializer (SAX parse / pickle load) raising on bytes it cannot decode. -/
def decGarbage : String → Except String Unit := fun _ => .error "deserialization error"

/-- A deserializer that accepts everything (a successful parse/load). -/
def decAll : String → Except String String := fun s => .ok s

/-- Modelled from the spec and the collaborator's documented behaviour:
`pickle.dumps` raises on a value it cannot serialize (a lambda, an open file
object); this encoder stands for the pickling of such a value. -/
def dumpsUnpicklable : Unit → Except String String := fun _ => .error "PicklingError"

/-- A serializer that always succeeds (a picklable value type). -/
def dumpsNat : Nat → Except String String := fun n => .ok (toString n)

/-- A document serializer (`str` of an element tree). -/
def encNat : Nat → String := fun n => toString n

/-! ### Helper instances and lemmas about the filesystem model -/

instance {ε α : Type} [DecidableEq ε] [DecidableEq α] : DecidableEq (Except ε α)
  | .error a, .error b =>
    if h : a = b then .isTrue (by rw [h]) else .isFalse (by simp [h])
  | .error a, .ok b => .isFalse (by simp)
  | .ok a, .error b => .isFalse (by simp)
  | .ok a, .ok b =>
    if h : a = b then .isTrue (by rw [h]) else .isFalse (by simp [h])

theorem fsLookup_mem {l : List FSEntry} {n : String} {e : FSEntry}
    (h : fsLookup l n = some e) : e ∈ l ∧ e.name = n :=
  ⟨List.mem_of_find?_eq_some h, by simpa using List.find?_some h⟩

theorem fsLookup_of_mem_nodup : ∀ {l : List FSEntry} {n : String} {e : FSEntry},
    (l.map FSEntry.name).Nodup → e ∈ l → e.name = n → fsLookup l n = some e := by
  intro l
  induction l with
  | nil => intro n e _ h; simp at h
  | cons a l ih =>
    intro n e hnd hmem hname
    rcases List.mem_cons.mp hmem with rfl | hmem'
    · simp [fsLookup, hname]
    · have hns : a.name ∉ l.map FSEntry.name ∧ (l.map FSEntry.name).Nodup := by
        simpa [List.nodup_cons] using hnd
      have hne : ¬(a.name = n) := by
        intro heq
        exact hns.1 (heq ▸ hname ▸ List.mem_map_of_mem FSEntry.name hmem')
      simpa [fsLookup, List.find?_cons, hne] using ih hns.2 hmem' hname

theorem fsLookup_isSome_of_mem_names {l : List FSEntry} {n : String}
    (h : n ∈ l.map FSEntry.name) : (fsLookup l n).isSome := by
  rcases List.mem_map.mp h with ⟨e, he, hname⟩
  simp only [fsLookup, List.find?_isSome]
  exact ⟨e, he, by simp [hname]⟩

theorem fsLookup_filter_not_name {l : List FSEntry} {n : String} :
    fsLookup (l.filter (fun x => x.name != n)) n = none := by
  simp only [fsLookup, List.find?_eq_none]
  intro x hx
  have := (List.mem_filter.mp hx).2
  simpa using this

theorem fsLookup_map_name {l : List FSEntry} {f : FSEntry → FSEntry} {n : String}
    (hf : ∀ x, (f x).name = x.name) :
    fsLookup (l.map f) n = (fsLookup l n).map f := by
  induction l with
  | nil => rfl
  | cons a l ih =>
    simp only [List.map_cons, fsLookup, List.find?_cons, hf a] at *
    cases hb : (a.name == n) <;> simp [ih]

theorem fsLookup_append {l₁ l₂ : List FSEntry} {n : String} :
    fsLookup (l₁ ++ l₂) n = (fsLookup l₁ n).or (fsLookup l₂ n) := by
  simp [fsLookup, List.find?_append]

theorem nodup_names_filter {l : List FSEntry} (p : FSEntry → Bool)
    (h : (l.map FSEntry.name).Nodup) : ((l.filter p).map FSEntry.name).Nodup :=
  ((l.filter_sublist).map FSEntry.name).nodup h

theorem clearLoop_eq (ns : List String) : ∀ (w : World),
    (w.files.map FSEntry.name).Nodup → ns.Nodup →
    (∀ n ∈ ns, (fsLookup w.files n).isSome) →
    clearLoop ns w = .ok { w with files := w.files.filter (clearKeeps ns) } := by
  induction ns with
  | nil =>
    intro w hw hns hmem
    have : w.files.filter (clearKeeps []) = w.files :=
      List.filter_eq_self.mpr (by intro a _; simp [clearKeeps])
    simp [clearLoop, this]
  | cons n ns ih =>
    intro w hw hns hmem
    have hns' : n ∉ ns ∧ ns.Nodup := List.nodup_cons.mp hns
    obtain ⟨e0, he0⟩ := Option.isSome_iff_exists.mp (hmem n (List.mem_cons_self n ns))
    have he0m := fsLookup_mem he0
    by_cases hdir : isdirIn w n = true
    · have hstep : clearLoop (n :: ns) w = clearLoop ns w := by
        simp [clearLoop, hdir]
      have hrec := ih w hw hns'.2 (fun m hm => hmem m (List.mem_cons_of_mem n hm))
      rw [hstep, hrec]
      have hfe : w.files.filter (clearKeeps ns) = w.files.filter (clearKeeps (n :: ns)) := by
        apply List.filter_congr
        intro e he
        by_cases hen : e.name = n
        · have : fsLookup w.files n = some e := fsLookup_of_mem_nodup hw he hen
          have hed : e.isDir = true := by
            have : e0 = e := by rw [he0] at this; exact Option.some.inj this
            rw [← this]
            simpa [isdirIn, he0] using hdir
          simp [clearKeeps, hed]
        · simp [clearKeeps, hen]
      rw [hfe]
    · have hd0 : e0.isDir = false := by
        by_contra hcon
        exact hdir (by simp [isdirIn, he0, eq_true_of_ne_false hcon])
      by_cases hpre : startswith n fnpref = true
      · have hrm : osRemove n w =
            (.ok (), { w with files := w.files.filter (fun x => x.name != n) }) := by
          simp [osRemove, he0, hd0]
        have hstep : clearLoop (n :: ns) w =
            clearLoop ns { w with files := w.files.filter (fun x => x.name != n) } := by
          simp [clearLoop, hdir, hpre, hrm]
        set w' : World := { w with files := w.files.filter (fun x => x.name != n) } with hw'
        have hw'nd : (w'.files.map FSEntry.name).Nodup := nodup_names_filter _ hw
        have hmem' : ∀ m ∈ ns, (fsLookup w'.files m).isSome := by
          intro m hm
          obtain ⟨em, hem⟩ := Option.isSome_iff_exists.mp
            (hmem m (List.mem_cons_of_mem n hm))
          have hemm := fsLookup_mem hem
          have hmn : ¬(m = n) := fun h => hns'.1 (h ▸ hm)
          apply fsLookup_isSome_of_mem_names
          rw [← hemm.2]
          apply List.mem_map_of_mem FSEntry.name
          apply List.mem_filter.mpr
          refine ⟨hemm.1, ?_⟩
          simp [hemm.2, hmn]
        have hrec := ih w' hw'nd hns'.2 hmem'
        rw [hstep, hrec]
        have hfe : w'.files.filter (clearKeeps ns) =
            w.files.filter (clearKeeps (n :: ns)) := by
          rw [hw']
          show (w.files.filter (fun x => x.name != n)).filter (clearKeeps ns) = _
          rw [List.filter_filter]
          apply List.filter_congr
          intro e he
          by_cases hen : e.name = n
          · have : fsLookup w.files n = some e := fsLookup_of_mem_nodup hw he hen
            have hee : e0 = e := by rw [he0] at this; exact Option.some.inj this
            have hed : e.isDir = false := hee ▸ hd0
            simp [clearKeeps, hen, hed, hpre]
          · simp [clearKeeps, hen]
        rw [hfe]
      · have hstep : clearLoop (n :: ns) w = clearLoop ns w := by
          simp [clearLoop, hdir, hpre]
        have hrec := ih w hw hns'.2 (fun m hm => hmem m (List.mem_cons_of_mem n hm))
        rw [hstep, hrec]
        have hfe : w.files.filter (clearKeeps ns) = w.files.filter (clearKeeps (n :: ns)) := by
          apply List.filter_congr
          intro e he
          by_cases hen : e.name = n
          · simp [clearKeeps, hen, hpre]
          · simp [clearKeeps, hen]
        rw [hfe]

/-- `FileCache.clear` on a directory with distinct entry names removes exactly
the non-directory entries whose name starts with `fnprefix`. -/
theorem clear_eq (w : World) (hw : (w.files.map FSEntry.name).Nodup) :
    FileCache.clear w =
      .ok { w with files := w.files.filter (fun e => e.isDir || !(startswith e.name fnpref)) } := by
  rw [FileCache.clear, clearLoop_eq (listdir w) w hw hw
    (fun n hn => fsLookup_isSome_of_mem_names hn)]
  have hfe : w.files.filter (clearKeeps (listdir w)) =
      w.files.filter (fun e => e.isDir || !(startswith e.name fnpref)) := by
    apply List.filter_congr
    intro e he
    have hm : e.name ∈ listdir w := List.mem_map_of_mem FSEntry.name he
    simp [clearKeeps, hm]
  rw [hfe]

theorem osRemove_missing {n : String} {w : World}
    (hl : fsLookup w.files n = none) :
    osRemove n w = (.error "FileNotFoundError", w) := by
  simp [osRemove, hl]

theorem osRemove_dir {n : String} {w : World} {e : FSEntry}
    (hl : fsLookup w.files n = some e) (hd : e.isDir = true) :
    osRemove n w = (.error "IsADirectoryError", w) := by
  simp [osRemove, hl, hd]

theorem osRemove_file {n : String} {w : World} {e : FSEntry}
    (hl : fsLookup w.files n = some e) (hd : e.isDir = false) :
    osRemove n w =
      (.ok (), { w with files := w.files.filter (fun x => x.name != n) }) := by
  simp [osRemove, hl, hd]

theorem openRead_missing {n : String} {w : World}
    (hl : fsLookup w.files n = none) :
    openRead n w = (.error "FileNotFoundError", w) := by
  simp [openRead, hl]

theorem openRead_dir {n : String} {w : World} {e : FSEntry}
    (hl : fsLookup w.files n = some e) (hd : e.isDir = true) :
    openRead n w = (.error "IsADirectoryError", w) := by
  simp [openRead, hl, hd]

theorem openRead_file {n : String} {w : World} {e : FSEntry}
    (hl : fsLookup w.files n = some e) (hd : e.isDir = false) :
    openRead n w =
      (.ok e.content, { w with openHandles := w.openHandles + 1 }) := by
  simp [openRead, hl, hd]

theorem openWrite_denied {n : String} {w : World}
    (hf : w.failWrites.contains n = true) :
    openWrite n w = (.error "IOError", w) := by
  have hf' : n ∈ w.failWrites := by simpa using hf
  simp [openWrite, hf']

theorem openWrite_trunc {n : String} {w : World} {e : FSEntry}
    (hf : w.failWrites.contains n = false)
    (hl : fsLookup w.files n = some e) (hd : e.isDir = false) :
    openWrite n w = (.ok (), { w with
      files := w.files.map (fun x => if x.name == n then { x with content := "" } else x),
      openHandles := w.openHandles + 1 }) := by
  have hf' : n ∉ w.failWrites := by simpa using hf
  simp [openWrite, hf', hl, hd]

theorem openWrite_create {n : String} {w : World}
    (hf : w.failWrites.contains n = false)
    (hl : fsLookup w.files n = none) :
    openWrite n w = (.ok (), { w with
      files := w.files ++ [{ name := n, isDir := false, content := "", ctime := w.now }],
      openHandles := w.openHandles + 1 }) := by
  have hf' : n ∉ w.failWrites := by simpa using hf
  simp [openWrite, hf', hl]

theorem rie_never {d : Duration} {fname : String} {w : World} (h0 : d.2 < 1) :
    remove_if_expired d fname w = (.ok (), w) := by
  simp [remove_if_expired, h0]

theorem rie_missing {d : Duration} {fname : String} {w : World}
    (h0 : ¬d.2 < 1) (hl : fsLookup w.files fname = none) :
    remove_if_expired d fname w = (.error "getctime: FileNotFoundError", w) := by
  simp [remove_if_expired, h0, hl]

theorem rie_tderr {d : Duration} {fname : String} {w : World} {e : FSEntry} {m : String}
    (h0 : ¬d.2 < 1) (hl : fsLookup w.files fname = some e)
    (ht : timedeltaSecs d.1 d.2 = .error m) :
    remove_if_expired d fname w = (.error m, w) := by
  simp [remove_if_expired, h0, hl, ht]

theorem rie_keep {d : Duration} {fname : String} {w : World} {e : FSEntry} {delta : Int}
    (h0 : ¬d.2 < 1) (hl : fsLookup w.files fname = some e)
    (ht : timedeltaSecs d.1 d.2 = .ok delta) (hc : ¬e.ctime + delta < w.now) :
    remove_if_expired d fname w = (.ok (), w) := by
  simp [remove_if_expired, h0, hl, ht, hc]

theorem rie_expire {d : Duration} {fname : String} {w : World} {e : FSEntry} {delta : Int}
    (h0 : ¬d.2 < 1) (hl : fsLookup w.files fname = some e)
    (ht : timedeltaSecs d.1 d.2 = .ok delta) (hc : e.ctime + delta < w.now) :
    remove_if_expired d fname w = osRemove fname w := by
  simp [remove_if_expired, h0, hl, ht, hc]

theorem osRemove_frame (n : String) (w : World) :
    ((osRemove n w).2).openHandles = w.openHandles ∧
      ((osRemove n w).2).now = w.now ∧
      ((osRemove n w).2).failWrites = w.failWrites := by
  rcases hl : fsLookup w.files n with _ | e
  · rw [osRemove_missing hl]; exact ⟨rfl, rfl, rfl⟩
  · by_cases hd : e.isDir = true
    · rw [osRemove_dir hl hd]; exact ⟨rfl, rfl, rfl⟩
    · rw [osRemove_file hl (by simpa using hd)]; exact ⟨rfl, rfl, rfl⟩

theorem clearLoop_openHandles : ∀ (ns : List String) (w w' : World),
    clearLoop ns w = .ok w' → w'.openHandles = w.openHandles := by
  intro ns
  induction ns with
  | nil => intro w w' h; cases h; rfl
  | cons n ns ih =>
    intro w w' h
    rw [clearLoop] at h
    by_cases hdir : isdirIn w n = true
    · rw [if_pos hdir] at h; exact ih w w' h
    · rw [if_neg hdir] at h
      by_cases hpre : startswith n fnpref = true
      · rw [if_pos hpre] at h
        rcases hr : osRemove n w with ⟨r, w1⟩
        rw [hr] at h
        cases r with
        | error e => cases h
        | ok u =>
          have := ih w1 w' h
          have hfr := osRemove_frame n w
          rw [hr] at hfr
          rw [this, hfr.1]
      · rw [if_neg hpre] at h; exact ih w w' h

theorem remove_if_expired_frame (d : Duration) (fname : String) (w : World) :
    ((remove_if_expired d fname w).2).openHandles = w.openHandles ∧
      ((remove_if_expired d fname w).2).now = w.now ∧
      ((remove_if_expired d fname w).2).failWrites = w.failWrites := by
  by_cases h0 : d.2 < 1
  · rw [rie_never h0]; exact ⟨rfl, rfl, rfl⟩
  · rcases hl : fsLookup w.files fname with _ | e
    · rw [rie_missing h0 hl]; exact ⟨rfl, rfl, rfl⟩
    · rcases ht : timedeltaSecs d.1 d.2 with m | delta
      · rw [rie_tderr h0 hl ht]; exact ⟨rfl, rfl, rfl⟩
      · by_cases hc : e.ctime + delta < w.now
        · rw [rie_expire h0 hl ht hc]; exact osRemove_frame fname w
        · rw [rie_keep h0 hl ht hc]; exact ⟨rfl, rfl, rfl⟩

/-- After `__remove_if_expired`, the state is unchanged or the file is gone. -/
theorem remove_if_expired_cases (d : Duration) (fname : String) (w : World) :
    (remove_if_expired d fname w).2 = w ∨
      fsLookup ((remove_if_expired d fname w).2).files fname = none := by
  by_cases h0 : d.2 < 1
  · rw [rie_never h0]; exact .inl rfl
  · rcases hl : fsLookup w.files fname with _ | e
    · rw [rie_missing h0 hl]; exact .inl rfl
    · rcases ht : timedeltaSecs d.1 d.2 with m | delta
      · rw [rie_tderr h0 hl ht]; exact .inl rfl
      · by_cases hc : e.ctime + delta < w.now
        · rw [rie_expire h0 hl ht hc]
          by_cases hd : e.isDir = true
          · rw [osRemove_dir hl hd]; exact .inl rfl
          · rw [osRemove_file hl (by simpa using hd)]
            exact .inr fsLookup_filter_not_name
        · rw [rie_keep h0 hl ht hc]; exact .inl rfl

theorem getf_rie_error {d : Duration} {suffix id : String} {w w1 : World} {m : String}
    (h : remove_if_expired d (cacheFileName id suffix) w = (.error m, w1)) :
    FileCache.getf d suffix id w = (none, w1) := by
  simp [FileCache.getf, h]

theorem getf_absent {d : Duration} {suffix id : String} {w w1 : World}
    (h : remove_if_expired d (cacheFileName id suffix) w = (.ok (), w1))
    (hl : fsLookup w1.files (cacheFileName id suffix) = none) :
    FileCache.getf d suffix id w = (none, w1) := by
  simp [FileCache.getf, h, openRead_missing hl]

theorem getf_dir {d : Duration} {suffix id : String} {w w1 : World} {e : FSEntry}
    (h : remove_if_expired d (cacheFileName id suffix) w = (.ok (), w1))
    (hl : fsLookup w1.files (cacheFileName id suffix) = some e) (hd : e.isDir = true) :
    FileCache.getf d suffix id w = (none, w1) := by
  simp [FileCache.getf, h, openRead_dir hl hd]

theorem getf_found {d : Duration} {suffix id : String} {w w1 : World} {e : FSEntry}
    (h : remove_if_expired d (cacheFileName id suffix) w = (.ok (), w1))
    (hl : fsLookup w1.files (cacheFileName id suffix) = some e) (hd : e.isDir = false) :
    FileCache.getf d suffix id w =
      (some e.content, { w1 with openHandles := w1.openHandles + 1 }) := by
  simp [FileCache.getf, h, openRead_file hl hd]

theorem get_of_getf_none {d : Duration} {suffix id : String} {w w1 : World}
    (h : FileCache.getf d suffix id w = (none, w1)) :
    FileCache.get d suffix id w = (none, w1) := by
  simp [FileCache.get, h]

theorem get_of_getf_some {d : Duration} {suffix id : String} {w w1 : World} {c : String}
    (h : FileCache.getf d suffix id w = (some c, w1)) :
    FileCache.get d suffix id w = (some c, closeHandle w1) := by
  simp [FileCache.get, h]

/-- Closing the handle just opened restores the state. -/
theorem closeHandle_bump (w : World) :
    closeHandle { w with openHandles := w.openHandles + 1 } = w := by
  simp [closeHandle]

theorem check_version_missing {ver : String} {w : World}
    (hl : fsLookup w.files "version" = none) :
    check_version ver w = versionRecover ver w := by
  simp [check_version, openRead_missing hl]

theorem check_version_unreadable {ver : String} {w : World} {e : FSEntry}
    (hl : fsLookup w.files "version" = some e) (hd : e.isDir = true) :
    check_version ver w = versionRecover ver w := by
  simp [check_version, openRead_dir hl hd]

theorem check_version_mismatch {ver : String} {w : World} {e : FSEntry}
    (hl : fsLookup w.files "version" = some e) (hd : e.isDir = false)
    (hne : e.content ≠ ver) :
    check_version ver w = versionRecover ver w := by
  have hbe : (e.content == ver) = false := by simp [hne]
  simp [check_version, openRead_file hl hd, hbe, closeHandle_bump]

theorem check_version_current {ver : String} {w : World} {e : FSEntry}
    (hl : fsLookup w.files "version" = some e) (hd : e.isDir = false)
    (hc : e.content = ver) :
    check_version ver w = .ok w := by
  simp [check_version, openRead_file hl hd, hc, closeHandle_bump]

/-- Updating the content of entries leaves names and directory flags alone. -/
theorem setContent_name (c : String) (x : FSEntry) :
    ((fun x : FSEntry => if x.name == "version" then { x with content := c } else x) x).name
      = x.name := by
  dsimp only
  split <;> rfl

theorem setContent_isDir (c : String) (x : FSEntry) :
    ((fun x : FSEntry => if x.name == "version" then { x with content := c } else x) x).isDir
      = x.isDir := by
  dsimp only
  split <;> rfl

/-- What the `except` handler of `__check_version` achieves: every prefixed
non-directory entry is removed and the marker holds the current version. -/
theorem versionRecover_spec (ver : String) (w : World)
    (hw : (w.files.map FSEntry.name).Nodup)
    (hfw : w.failWrites.contains "version" = false)
    (hnd : ∀ e, fsLookup w.files "version" = some e → e.isDir = false) :
    ∃ w', versionRecover ver w = .ok w' ∧
      (∀ e ∈ w'.files, startswith e.name fnpref = true → e.isDir = true) ∧
      (∃ m, fsLookup w'.files "version" = some m ∧ m.isDir = false ∧ m.content = ver) ∧
      w'.openHandles = w.openHandles := by
  have hclear := clear_eq w hw
  set l := w.files.filter (fun e => e.isDir || !(startswith e.name fnpref)) with hldef
  set wc : World := { w with files := l } with hwc
  have h1 : versionRecover ver w =
      (match openWrite "version" wc with
        | (.error e, _) => .error e
        | (.ok _, w2) => .ok (closeHandle (writeContent "version" ver w2))) := by
    simp [versionRecover, hclear]
  have hkeep : ∀ e ∈ l, startswith e.name fnpref = true → e.isDir = true := by
    intro e he hp
    have h2 := (List.mem_filter.mp he).2
    simpa [hp] using h2
  have hfwc : wc.failWrites.contains "version" = false := hfw
  rcases hv : fsLookup l "version" with _ | m
  · -- the marker is absent after the clear: open in mode "w" creates it
    rw [openWrite_create hfwc hv] at h1
    refine ⟨_, by rw [h1], ?_, ?_, ?_⟩
    · intro e he hp
      simp only [writeContent, List.map_append] at he
      rcases List.mem_append.mp he with hel | he0
      · rcases List.mem_map.mp hel with ⟨x, hx, rfl⟩
        rw [setContent_isDir]
        rw [setContent_name] at hp
        exact hkeep x hx hp
      · rcases List.mem_map.mp he0 with ⟨x, hx, rfl⟩
        have : x = { name := "version", isDir := false, content := "", ctime := wc.now } := by
          simpa using hx
        subst this
        rw [setContent_name] at hp
        have hvp : startswith "version" fnpref = false := by decide
        exact absurd hp (by simp [hvp])
    · refine ⟨{ name := "version", isDir := false, content := ver, ctime := wc.now }, ?_, rfl, rfl⟩
      show fsLookup (List.map _ (l ++ [_])) "version" = _
      rw [fsLookup_map_name (setContent_name ver), fsLookup_append, hv]
      rfl
    · rfl
  · -- the marker survived the clear: open in mode "w" truncates it
    have hm := fsLookup_mem hv
    have hmw : m ∈ w.files := (List.mem_filter.mp hm.1).1
    have hmdir : m.isDir = false :=
      hnd m (fsLookup_of_mem_nodup hw hmw hm.2)
    rw [openWrite_trunc hfwc hv hmdir] at h1
    refine ⟨_, by rw [h1], ?_, ?_, ?_⟩
    · intro e he hp
      simp only [writeContent, List.map_map] at he
      rcases List.mem_map.mp he with ⟨x, hx, rfl⟩
      have hn1 : ((fun x : FSEntry => if x.name == "version" then { x with content := "" } else x) x).name = x.name :=
        setContent_name "" x
      have hi1 : ((fun x : FSEntry => if x.name == "version" then { x with content := "" } else x) x).isDir = x.isDir :=
        setContent_isDir "" x
      simp only [Function.comp_apply] at hp ⊢
      rw [setContent_isDir, hi1]
      rw [setContent_name, hn1] at hp
      exact hkeep x hx hp
    · refine ⟨{ m with content := ver }, ?_, hmdir, rfl⟩
      show fsLookup (List.map _ (List.map _ l)) "version" = _
      rw [fsLookup_map_name (setContent_name ver),
        fsLookup_map_name (setContent_name ""), hv]
      simp [hm.2]
    · rfl


theorem openWrite_dirErr {n : String} {w : World} {e : FSEntry}
    (hf : w.failWrites.contains n = false)
    (hl : fsLookup w.files n = some e) (hd : e.isDir = true) :
    openWrite n w = (.error "IsADirectoryError", w) := by
  have hf' : n ∉ w.failWrites := by simpa using hf
  simp [openWrite, hf', hl, hd]

theorem openWrite_ok_handles {n : String} {w : World} {r : Unit} {w2 : World}
    (h : openWrite n w = (.ok r, w2)) : w2.openHandles = w.openHandles + 1 := by
  by_cases hf : w.failWrites.contains n = true
  · rw [openWrite_denied hf] at h
    cases h
  · have hf' : w.failWrites.contains n = false := by simpa using hf
    rcases hl : fsLookup w.files n with _ | e
    · rw [openWrite_create hf' hl] at h
      cases h
      rfl
    · by_cases hd : e.isDir = true
      · rw [openWrite_dirErr hf' hl hd] at h
        cases h
      · rw [openWrite_trunc hf' hl (by simpa using hd)] at h
        cases h
        rfl

/-- `FileCache.put` returns its `data` argument on every path. -/
theorem put_fst (suffix id data : String) (w : World) :
    (FileCache.put suffix id data w).1 = data := by
  rcases h : openWrite (cacheFileName id suffix) w with ⟨r, w1⟩
  cases r <;> simp [FileCache.put, h]

theorem openWrite_err_snd {n : String} {w : World} {m : String} {w2 : World}
    (h : openWrite n w = (.error m, w2)) : w2 = w := by
  by_cases hf : w.failWrites.contains n = true
  · rw [openWrite_denied hf] at h
    cases h
    rfl
  · have hf' : w.failWrites.contains n = false := by simpa using hf
    rcases hl : fsLookup w.files n with _ | e
    · rw [openWrite_create hf' hl] at h
      cases h
    · by_cases hd : e.isDir = true
      · rw [openWrite_dirErr hf' hl hd] at h
        cases h
        rfl
      · rw [openWrite_trunc hf' hl (by simpa using hd)] at h
        cases h

theorem put_handles (suffix id data : String) (w : World) :
    ((FileCache.put suffix id data w).2).openHandles = w.openHandles := by
  rcases h : openWrite (cacheFileName id suffix) w with ⟨r, w1⟩
  cases r with
  | error m =>
    rw [openWrite_err_snd h] at h ⊢
    simp [FileCache.put, h]
  | ok u =>
    have hh := openWrite_ok_handles h
    simp [FileCache.put, h, closeHandle, writeContent, hh]

theorem purge_handles (suffix id : String) (w : World) :
    (FileCache.purge suffix id w).openHandles = w.openHandles := by
  rw [FileCache.purge]
  exact (osRemove_frame (cacheFileName id suffix) w).1

theorem purge_frame (suffix id : String) (w : World) :
    (FileCache.purge suffix id w).openHandles = w.openHandles ∧
      (FileCache.purge suffix id w).now = w.now ∧
      (FileCache.purge suffix id w).failWrites = w.failWrites := by
  rw [FileCache.purge]
  exact osRemove_frame (cacheFileName id suffix) w

/-- `_getf` either reports absent, or hands back the bytes with exactly one
freshly opened handle. -/
theorem getf_split (d : Duration) (suffix id : String) (w : World) :
    (∃ w1, FileCache.getf d suffix id w = (none, w1) ∧
      w1.openHandles = w.openHandles) ∨
    (∃ c w1, FileCache.getf d suffix id w = (some c, w1) ∧
      w1.openHandles = w.openHandles + 1) := by
  rcases hrm : remove_if_expired d (cacheFileName id suffix) w with ⟨r, w1⟩
  have hfr := (remove_if_expired_frame d (cacheFileName id suffix) w).1
  rw [hrm] at hfr
  have hfr1 : w1.openHandles = w.openHandles := hfr
  cases r with
  | error m => exact .inl ⟨w1, getf_rie_error hrm, hfr1⟩
  | ok u =>
    cases u
    rcases hl : fsLookup w1.files (cacheFileName id suffix) with _ | e
    · exact .inl ⟨w1, getf_absent hrm hl, hfr1⟩
    · by_cases hd : e.isDir = true
      · exact .inl ⟨w1, getf_dir hrm hl hd, hfr1⟩
      · refine .inr ⟨e.content, _, getf_found hrm hl (by simpa using hd), ?_⟩
        simp [hfr1]

theorem get_handles (d : Duration) (suffix id : String) (w : World) :
    ((FileCache.get d suffix id w).2).openHandles = w.openHandles := by
  rcases getf_split d suffix id w with ⟨w1, hg, hh⟩ | ⟨c, w1, hg, hh⟩
  · rw [get_of_getf_none hg]
    exact hh
  · rw [get_of_getf_some hg]
    simp [closeHandle, hh]

theorem docGet_absent {α : Type} {dec : String → Except String α} {d : Duration}
    {id : String} {w w1 : World}
    (hg : FileCache.getf d DocumentCache.fnsuffix id w = (none, w1)) :
    DocumentCache.get dec d id w = (none, w1) := by
  simp [DocumentCache.get, hg]

theorem docGet_ok {α : Type} {dec : String → Except String α} {d : Duration}
    {id : String} {w w1 : World} {c : String} {v : α}
    (hg : FileCache.getf d DocumentCache.fnsuffix id w = (some c, w1))
    (hv : dec c = .ok v) :
    DocumentCache.get dec d id w = (some v, w1) := by
  simp [DocumentCache.get, hg, hv]

theorem docGet_err {α : Type} {dec : String → Except String α} {d : Duration}
    {id : String} {w w1 : World} {c : String} {m : String}
    (hg : FileCache.getf d DocumentCache.fnsuffix id w = (some c, w1))
    (hm : dec c = .error m) :
    DocumentCache.get dec d id w =
      (none, FileCache.purge DocumentCache.fnsuffix id (closeHandle w1)) := by
  simp [DocumentCache.get, hg, hm]

theorem objGet_absent {α : Type} {dec : String → Except String α} {d : Duration}
    {id : String} {w w1 : World}
    (hg : FileCache.getf d ObjectCache.fnsuffix id w = (none, w1)) :
    ObjectCache.get dec d id w = (none, w1) := by
  simp [ObjectCache.get, hg]

theorem objGet_ok {α : Type} {dec : String → Except String α} {d : Duration}
    {id : String} {w w1 : World} {c : String} {v : α}
    (hg : FileCache.getf d ObjectCache.fnsuffix id w = (some c, w1))
    (hv : dec c = .ok v) :
    ObjectCache.get dec d id w = (some v, w1) := by
  simp [ObjectCache.get, hg, hv]

theorem objGet_err {α : Type} {dec : String → Except String α} {d : Duration}
    {id : String} {w w1 : World} {c : String} {m : String}
    (hg : FileCache.getf d ObjectCache.fnsuffix id w = (some c, w1))
    (hm : dec c = .error m) :
    ObjectCache.get dec d id w =
      (none, FileCache.purge ObjectCache.fnsuffix id (closeHandle w1)) := by
  simp [ObjectCache.get, hg, hm]

theorem versionRecover_handles {ver : String} {w w' : World}
    (h : versionRecover ver w = .ok w') : w'.openHandles = w.openHandles := by
  rcases hc : FileCache.clear w with m | w1
  · simp [versionRecover, hc] at h
  · simp only [versionRecover, hc] at h
    have h1 : w1.openHandles = w.openHandles := clearLoop_openHandles (listdir w) w w1 hc
    rcases how : openWrite "version" w1 with ⟨r, w2⟩
    rw [how] at h
    cases r with
    | error m => cases h
    | ok u =>
      cases h
      have h2 := openWrite_ok_handles how
      simp [closeHandle, writeContent, h2, h1]

theorem check_version_handles {ver : String} {w w' : World}
    (h : check_version ver w = .ok w') : w'.openHandles = w.openHandles := by
  rcases hl : fsLookup w.files "version" with _ | e
  · rw [check_version_missing hl] at h
    exact versionRecover_handles h
  · by_cases hd : e.isDir = true
    · rw [check_version_unreadable hl hd] at h
      exact versionRecover_handles h
    · by_cases hc : e.content = ver
      · rw [check_version_current hl (by simpa using hd) hc] at h
        cases h
        rfl
      · rw [check_version_mismatch hl (by simpa using hd) hc] at h
        exact versionRecover_handles h

theorem init_ok_handles {dur : List (String × Nat)} {ver : String} {w : World}
    {d : Duration} {w' : World}
    (h : FileCache.init dur ver w = .ok (d, w')) : w'.openHandles = w.openHandles := by
  rw [FileCache.init] at h
  rcases hs : set_duration dur with m | d0
  · rw [hs] at h
    cases h
  · rw [hs] at h
    rcases hc : check_version ver w with m | w1
    · rw [hc] at h
      cases h
    · rw [hc] at h
      cases h
      exact check_version_handles hc

/-! ### The claims -/

/-- C2: for every id, `FileCache.get` never raises to the caller: it is a
total function whose result is either `none` (absent) or the bytes actually
stored in the non-directory backing file; every internal failure — a missing
file, an entry the expiration check just removed, an I/O error on open — is
swallowed and degrades to `none`. -/
theorem c2_get_never_raises (d : Duration) (suffix id : String) (w : World) :
    (FileCache.get d suffix id w).1 = none ∨
      ∃ e, fsLookup w.files (cacheFileName id suffix) = some e ∧ e.isDir = false ∧
        (FileCache.get d suffix id w).1 = some e.content := by
  rcases hrm : remove_if_expired d (cacheFileName id suffix) w with ⟨r, w1⟩
  have hca := remove_if_expired_cases d (cacheFileName id suffix) w
  rw [hrm] at hca
  cases r with
  | error m =>
    left
    rw [get_of_getf_none (getf_rie_error hrm)]
  | ok u =>
    cases u
    have hca' : w1 = w ∨ fsLookup w1.files (cacheFileName id suffix) = none := hca
    rcases hca' with rfl | hnone
    · rcases hl : fsLookup w1.files (cacheFileName id suffix) with _ | e
      · left
        rw [get_of_getf_none (getf_absent hrm hl)]
      · by_cases hd : e.isDir = true
        · left
          rw [get_of_getf_none (getf_dir hrm hl hd)]
        · right
          refine ⟨e, rfl, by simpa using hd, ?_⟩
          rw [get_of_getf_some (getf_found hrm hl (by simpa using hd))]
    · left
      rw [get_of_getf_none (getf_absent hrm hnone)]

/-- C9: `clear()` removes exactly the non-directory files of the cache root
whose names start with the configured prefix, leaving subdirectories and
other files (the version marker among them) untouched; stated over any
directory listing with distinct entry names, as on a real filesystem. -/
theorem c9_clear_exact (w : World) (hw : (w.files.map FSEntry.name).Nodup) :
    FileCache.clear w =
      .ok { w with files := w.files.filter (fun e => e.isDir || !(startswith e.name fnpref)) } :=
  clear_eq w hw

/-- C9 witness: clearing a directory holding a prefixed file, a prefixed
subdirectory, the version marker and an unrelated file removes only the
prefixed file. -/
theorem c9_clear_exact_witness :
    (wMix.files.map FSEntry.name).Nodup ∧
      FileCache.clear wMix =
        .ok { wMix with files := wMix.files.filter (fun e => e.isDir || !(startswith e.name fnpref)) } :=
  ⟨by decide, c9_clear_exact wMix (by decide)⟩

/-- C3 counterexample: the claim also covers a marker that is unreadable, but
there construction does not rewrite the marker — it raises.  With the marker
path occupied by a subdirectory, the recovery write `open(path, "w")` in the
except handler raises out of the constructor; with a stale but unwritable
marker file the same rewrite raises an I/O error.  In neither case is the
marker rewritten with the current version. -/
theorem c3_unreadable_marker_counterexample :
    FileCache.init [] "1.0" wDirMarker = .error "IsADirectoryError" ∧
      FileCache.init [] "1.0" wROMarker = .error "IOError" :=
  ⟨by decide, by decide⟩

/-- C3 amended: constructing a FileCache over a directory whose version
marker holds a different string than the current software version, or whose
marker is missing, removes every non-directory entry whose name starts with
the cache prefix and rewrites the marker with the current version string —
provided the marker path is writable and not occupied by a directory; when
the marker is unreadable because a directory occupies its path, or is
unwritable, the rewrite in the except handler raises out of the constructor
and the marker is not rewritten (see the counterexample).  Stated for a
directory with distinct entry names. -/
theorem c3_version_invalidation (ver : String) (w : World)
    (hw : (w.files.map FSEntry.name).Nodup)
    (hfw : w.failWrites.contains "version" = false)
    (hmk : ∀ e, fsLookup w.files "version" = some e → e.isDir = false)
    (hstale : fsLookup w.files "version" = none ∨
      ∃ e, fsLookup w.files "version" = some e ∧ e.content ≠ ver) :
    ∃ w', check_version ver w = .ok w' ∧
      (∀ e ∈ w'.files, startswith e.name fnpref = true → e.isDir = true) ∧
      ∃ m, fsLookup w'.files "version" = some m ∧ m.isDir = false ∧ m.content = ver := by
  have hcv : check_version ver w = versionRecover ver w := by
    rcases hstale with hnone | ⟨e, he, hne⟩
    · exact check_version_missing hnone
    · exact check_version_mismatch he (hmk e he) hne
  rw [hcv]
  obtain ⟨w', h1, h2, h3, _⟩ := versionRecover_spec ver w hw hfw hmk
  exact ⟨w', h1, h2, h3⟩

/-- C3 witness: constructing with current version 1.0 over a directory whose
marker holds 0.9 purges the prefixed file and rewrites the marker. -/
theorem c3_version_invalidation_witness :
    ((wMix.files.map FSEntry.name).Nodup ∧ wMix.failWrites.contains "version" = false) ∧
      ∃ w', check_version "1.0" wMix = .ok w' ∧
        (∀ e ∈ w'.files, startswith e.name fnpref = true → e.isDir = true) ∧
        ∃ m, fsLookup w'.files "version" = some m ∧ m.isDir = false ∧ m.content = "1.0" :=
  ⟨⟨by decide, by decide⟩,
    c3_version_invalidation "1.0" wMix (by decide) (by decide)
      (fun e he => by rw [← Option.some.inj he])
      (.inr ⟨⟨"version", false, "0.9", 0⟩, by decide, by decide⟩)⟩

/-- C4 counterexample: with duration `(seconds, 1)`, an entry created at time
0 and read at exactly time 1 — its creation time plus one second — is still
present (the claim says it is absent there): the code only removes the entry
when `created + timedelta` is strictly less than now. -/
theorem c4_boundary_counterexample :
    wBoundary.now = eBoundary.ctime + 1 ∧
      (FileCache.get (some "seconds", 1) FileCache.fnsuffix "a" wBoundary).1 = some "hello" :=
  ⟨by decide, by decide⟩

/-- C4 amended: with duration `(seconds, 1)`, an entry read strictly after
its creation time plus one second is absent and the file is deleted before
the read; an entry read at or before creation time plus one second is
present. -/
theorem c4_expiry_boundary (id : String) (w : World) (e : FSEntry)
    (hl : fsLookup w.files (cacheFileName id FileCache.fnsuffix) = some e)
    (hd : e.isDir = false) :
    (e.ctime + 1 < w.now →
      FileCache.get (some "seconds", 1) FileCache.fnsuffix id w =
        (none, { w with files := w.files.filter (fun x => x.name != cacheFileName id FileCache.fnsuffix) }) ∧
      fsLookup ((FileCache.get (some "seconds", 1) FileCache.fnsuffix id w).2).files
        (cacheFileName id FileCache.fnsuffix) = none) ∧
    (w.now ≤ e.ctime + 1 →
      FileCache.get (some "seconds", 1) FileCache.fnsuffix id w = (some e.content, w)) := by
  have h0 : ¬((some "seconds", 1) : Duration).2 < 1 := by decide
  have ht : timedeltaSecs ((some "seconds", 1) : Duration).1 ((some "seconds", 1) : Duration).2
      = .ok 1 := by decide
  constructor
  · intro hc
    have hrm : remove_if_expired (some "seconds", 1) (cacheFileName id FileCache.fnsuffix) w
        = (.ok (), { w with files := w.files.filter (fun x => x.name != cacheFileName id FileCache.fnsuffix) }) := by
      rw [rie_expire h0 hl ht hc, osRemove_file hl hd]
    have hget := get_of_getf_none (getf_absent hrm fsLookup_filter_not_name)
    refine ⟨hget, ?_⟩
    rw [hget]
    exact fsLookup_filter_not_name
  · intro hc
    have hrm : remove_if_expired (some "seconds", 1) (cacheFileName id FileCache.fnsuffix) w
        = (.ok (), w) := rie_keep h0 hl ht (by omega)
    have hget := get_of_getf_some (getf_found hrm hl hd)
    rw [closeHandle_bump] at hget
    exact hget

/-- C4 amended, witness: the entry of `wBoundary` instantiates the amended
boundary statement; at `now = ctime + 1` the present branch applies. -/
theorem c4_expiry_boundary_witness :
    (fsLookup wBoundary.files (cacheFileName "a" FileCache.fnsuffix) = some eBoundary ∧
      eBoundary.isDir = false) ∧
    ((eBoundary.ctime + 1 < wBoundary.now →
      FileCache.get (some "seconds", 1) FileCache.fnsuffix "a" wBoundary =
        (none, { wBoundary with files := wBoundary.files.filter (fun x => x.name != cacheFileName "a" FileCache.fnsuffix) }) ∧
      fsLookup ((FileCache.get (some "seconds", 1) FileCache.fnsuffix "a" wBoundary).2).files
        (cacheFileName "a" FileCache.fnsuffix) = none) ∧
    (wBoundary.now ≤ eBoundary.ctime + 1 →
      FileCache.get (some "seconds", 1) FileCache.fnsuffix "a" wBoundary =
        (some eBoundary.content, wBoundary))) :=
  ⟨⟨by decide, by decide⟩, c4_expiry_boundary "a" wBoundary eBoundary (by decide) (by decide)⟩

/-- C5 counterexample: constructing with the two duration keywords `days` and
`hours` does not fail — it succeeds and silently keeps the default
never-expire duration `(None, 0)`. -/
theorem c5_two_durations_counterexample :
    FileCache.init [("days", 1), ("hours", 2)] "0.6" wEmpty = .ok ((none, 0), wMarker) := by
  rfl

/-- C5 amended: supplying more than one duration keyword at construction is
not an error: `__set_duration` only acts when exactly one keyword is given,
so the keywords are silently ignored and the cache is constructed with the
default never-expire duration `(None, 0)` (only the version check decides
success). -/
theorem c5_extra_durations_ignored (dur : List (String × Nat)) (ver : String) (w : World)
    (h : 2 ≤ dur.length) :
    FileCache.init dur ver w =
      (check_version ver w).map (fun w1 => (((none : Option String), 0), w1)) := by
  obtain ⟨a, b, rest, rfl⟩ : ∃ a b rest, dur = a :: b :: rest := by
    match dur, h with
    | a :: b :: rest, _ => exact ⟨a, b, rest, rfl⟩
  have hsd : set_duration (a :: b :: rest) = .ok (none, 0) := rfl
  simp only [FileCache.init, hsd]
  rcases hcv : check_version ver w with m | w1 <;> simp [Except.map]

/-- C5 amended, witness: the two-keyword construction over the empty
directory instantiates the amended statement. -/
theorem c5_extra_durations_ignored_witness :
    2 ≤ ([("days", 1), ("hours", 2)] : List (String × Nat)).length ∧
      FileCache.init [("days", 1), ("hours", 2)] "0.6" wEmpty =
        (check_version "0.6" wEmpty).map (fun w1 => (((none : Option String), 0), w1)) :=
  ⟨by decide, c5_extra_durations_ignored [("days", 1), ("hours", 2)] "0.6" wEmpty (by decide)⟩

/-- C6 counterexample: `NoCache.put` returns `None` rather than its input,
and `NoCache.purge` raises the inherited not-implemented error instead of
being a no-op that never fails. -/
theorem c6_nocache_counterexample :
    NoCache.put "id" (42 : Nat) ≠ some 42 ∧
      NoCache.purge "id" = .error "not-implemented" :=
  ⟨by decide, rfl⟩

/-- C6 amended: for NoCache, `get` always reports absent and `put` is a
no-op, but `put` returns `None` (absent) rather than its input, and `purge`
and `clear` are inherited from the abstract `Cache` base class and raise its
not-implemented error rather than being no-ops. -/
theorem c6_nocache_behaviour (α : Type) (id : String) (v : α) :
    NoCache.get α id = none ∧ NoCache.put id v = none ∧
      NoCache.purge id = .error "not-implemented" ∧
      NoCache.clear = .error "not-implemented" :=
  ⟨rfl, rfl, rfl, rfl⟩

/-- C7 counterexample: `ObjectCache.put` evaluates `pickle.dumps` before
entering the guarded write, so a serialization failure propagates to the
caller instead of put returning its input. -/
theorem c7_put_counterexample :
    ObjectCache.put dumpsUnpicklable "id" () wMarker = .error "PicklingError" := rfl

/-- C7 amended: no failure of the guarded persistence step makes `put` raise
or return something other than its input — `FileCache.put` returns its bytes
on every path, `DocumentCache.put` always returns the document — and
`ObjectCache.put` returns its input whenever serialization succeeds; a
serialization failure in `ObjectCache.put`, however, propagates (see the
counterexample). -/
theorem c7_put_returns_input {α : Type} (suffix id data : String) (w : World)
    (encD : α → String) (v : α) (encO : α → Except String String) (bytes : String)
    (hok : encO v = .ok bytes) :
    (FileCache.put suffix id data w).1 = data ∧
      (DocumentCache.put encD id v w).1 = v ∧
      ObjectCache.put encO id v w = .ok (v, (FileCache.put ObjectCache.fnsuffix id bytes w).2) := by
  refine ⟨put_fst suffix id data w, rfl, ?_⟩
  rw [ObjectCache.put, hok]

/-- C7 amended, witness: a picklable value instantiates the statement. -/
theorem c7_put_returns_input_witness :
    dumpsNat 5 = .ok "5" ∧
      ((FileCache.put FileCache.fnsuffix "id" "data" wMarker).1 = "data" ∧
        (DocumentCache.put encNat "id" 5 wMarker).1 = 5 ∧
        ObjectCache.put dumpsNat "id" 5 wMarker =
          .ok (5, (FileCache.put ObjectCache.fnsuffix "id" "5" wMarker).2)) :=
  ⟨rfl, c7_put_returns_input FileCache.fnsuffix "id" "data" wMarker encNat 5 dumpsNat "5" rfl⟩

/-- When the expiry computation is well-defined, `_getf` over an existing
non-directory entry either hands its bytes back (with the handle open) or the
expiry check has already deleted the file and `_getf` reports absent. -/
theorem getf_corrupt_cases {d : Duration} {suffix id : String} {w : World} {e : FSEntry}
    (hdok : d.2 = 0 ∨ ∃ delta, timedeltaSecs d.1 d.2 = .ok delta)
    (hl : fsLookup w.files (cacheFileName id suffix) = some e)
    (hd : e.isDir = false) :
    FileCache.getf d suffix id w =
        (some e.content, { w with openHandles := w.openHandles + 1 }) ∨
      FileCache.getf d suffix id w =
        (none, { w with files := w.files.filter (fun x => x.name != cacheFileName id suffix) }) := by
  by_cases h0 : d.2 < 1
  · exact .inl (getf_found (rie_never h0) hl hd)
  · obtain ⟨delta, ht⟩ : ∃ delta, timedeltaSecs d.1 d.2 = .ok delta := by
      rcases hdok with h | h
      · omega
      · exact h
    by_cases hc : e.ctime + delta < w.now
    · have hrm : remove_if_expired d (cacheFileName id suffix) w =
          (.ok (), { w with files := w.files.filter (fun x => x.name != cacheFileName id suffix) }) := by
        rw [rie_expire h0 hl ht hc, osRemove_file hl hd]
      exact .inr (getf_absent hrm fsLookup_filter_not_name)
    · exact .inl (getf_found (rie_keep h0 hl ht hc) hl hd)

/-- C8 counterexample: on a cache configured with the documented `months`
unit, a corrupt entry's `get` still returns absent, but the backing file
survives: the expiry computation raises before the bytes are ever read, the
`TypeError` is swallowed in `_getf`, and the decode-failure purge is never
reached — refuting "afterwards the backing file no longer exists". -/
theorem c8_corrupt_survives_counterexample :
    (DocumentCache.get decGarbage (some "months", 1) "a" wGarbage).1 = none ∧
      fsLookup ((DocumentCache.get decGarbage (some "months", 1) "a" wGarbage).2).files
        (cacheFileName "a" DocumentCache.fnsuffix) =
        some ⟨"suds-a.xml", false, "garbage", 0⟩ :=
  ⟨by decide, by decide⟩

/-- C8 amended: when the backing file of an entry holds bytes the codec
cannot deserialize, `get` returns absent without raising, and — whenever the
configured duration's expiry computation is well-defined (value 0, or a unit
`datetime.timedelta` accepts; everything except the broken `months` unit with
a positive value) — the backing file no longer exists afterwards, removed
either by the decode-failure purge or by the expiry check itself; on a
months-configured cache the corrupt file survives (see the counterexample).
Stated for both codecs. -/
theorem c8_corrupt_purged {α : Type} (dec : String → Except String α)
    (d : Duration) (hdok : d.2 = 0 ∨ ∃ delta, timedeltaSecs d.1 d.2 = .ok delta)
    (id : String) (w : World)
    (eD eO : FSEntry) (msgD msgO : String)
    (hlD : fsLookup w.files (cacheFileName id DocumentCache.fnsuffix) = some eD)
    (hdD : eD.isDir = false) (hcD : dec eD.content = .error msgD)
    (hlO : fsLookup w.files (cacheFileName id ObjectCache.fnsuffix) = some eO)
    (hdO : eO.isDir = false) (hcO : dec eO.content = .error msgO) :
    ((DocumentCache.get dec d id w).1 = none ∧
      fsLookup ((DocumentCache.get dec d id w).2).files
        (cacheFileName id DocumentCache.fnsuffix) = none) ∧
    ((ObjectCache.get dec d id w).1 = none ∧
      fsLookup ((ObjectCache.get dec d id w).2).files
        (cacheFileName id ObjectCache.fnsuffix) = none) := by
  constructor
  · rcases getf_corrupt_cases hdok hlD hdD with hg | hg
    · have hget := docGet_err hg hcD
      rw [closeHandle_bump] at hget
      have hpurge : FileCache.purge DocumentCache.fnsuffix id w =
          { w with files := w.files.filter (fun x => x.name != cacheFileName id DocumentCache.fnsuffix) } := by
        rw [FileCache.purge, osRemove_file hlD hdD]
      rw [hpurge] at hget
      rw [hget]
      exact ⟨rfl, fsLookup_filter_not_name⟩
    · rw [docGet_absent hg]
      exact ⟨rfl, fsLookup_filter_not_name⟩
  · rcases getf_corrupt_cases hdok hlO hdO with hg | hg
    · have hget := objGet_err hg hcO
      rw [closeHandle_bump] at hget
      have hpurge : FileCache.purge ObjectCache.fnsuffix id w =
          { w with files := w.files.filter (fun x => x.name != cacheFileName id ObjectCache.fnsuffix) } := by
        rw [FileCache.purge, osRemove_file hlO hdO]
      rw [hpurge] at hget
      rw [hget]
      exact ⟨rfl, fsLookup_filter_not_name⟩
    · rw [objGet_absent hg]
      exact ⟨rfl, fsLookup_filter_not_name⟩

/-- C8 amended, witness: garbage bytes under both codec entries of `wGarbage`
(with the default never-expire duration, whose expiry computation is
trivially well-defined) are reported absent and their files purged. -/
theorem c8_corrupt_purged_witness :
    (fsLookup wGarbage.files (cacheFileName "a" DocumentCache.fnsuffix) =
        some ⟨"suds-a.xml", false, "garbage", 0⟩ ∧
      fsLookup wGarbage.files (cacheFileName "a" ObjectCache.fnsuffix) =
        some ⟨"suds-a.px", false, "garbage", 0⟩) ∧
    (((DocumentCache.get decGarbage (none, 0) "a" wGarbage).1 = none ∧
      fsLookup ((DocumentCache.get decGarbage (none, 0) "a" wGarbage).2).files
        (cacheFileName "a" DocumentCache.fnsuffix) = none) ∧
    ((ObjectCache.get decGarbage (none, 0) "a" wGarbage).1 = none ∧
      fsLookup ((ObjectCache.get decGarbage (none, 0) "a" wGarbage).2).files
        (cacheFileName "a" ObjectCache.fnsuffix) = none)) :=
  ⟨⟨by decide, by decide⟩,
    c8_corrupt_purged decGarbage (none, 0) (.inl rfl) "a" wGarbage
      ⟨"suds-a.xml", false, "garbage", 0⟩ ⟨"suds-a.px", false, "garbage", 0⟩
      "deserialization error" "deserialization error"
      (by decide) rfl rfl (by decide) rfl rfl⟩

theorem docGet_handles_none {α : Type} {dec : String → Except String α}
    {d : Duration} {id : String} {w : World}
    (h : (DocumentCache.get dec d id w).1 = none) :
    ((DocumentCache.get dec d id w).2).openHandles = w.openHandles := by
  rcases getf_split d DocumentCache.fnsuffix id w with ⟨w1, hg, hh⟩ | ⟨c, w1, hg, hh⟩
  · rw [docGet_absent hg]
    exact hh
  · rcases hv : dec c with m | v
    · rw [docGet_err hg hv]
      simp [purge_handles, closeHandle, hh]
    · rw [docGet_ok hg hv] at h
      cases h

theorem docGet_handles_some {α : Type} {dec : String → Except String α}
    {d : Duration} {id : String} {w : World} {v : α}
    (h : (DocumentCache.get dec d id w).1 = some v) :
    ((DocumentCache.get dec d id w).2).openHandles = w.openHandles + 1 := by
  rcases getf_split d DocumentCache.fnsuffix id w with ⟨w1, hg, hh⟩ | ⟨c, w1, hg, hh⟩
  · rw [docGet_absent hg] at h
    cases h
  · rcases hv : dec c with m | v'
    · rw [docGet_err hg hv] at h
      cases h
    · rw [docGet_ok hg hv]
      exact hh

theorem objGet_handles_none {α : Type} {dec : String → Except String α}
    {d : Duration} {id : String} {w : World}
    (h : (ObjectCache.get dec d id w).1 = none) :
    ((ObjectCache.get dec d id w).2).openHandles = w.openHandles := by
  rcases getf_split d ObjectCache.fnsuffix id w with ⟨w1, hg, hh⟩ | ⟨c, w1, hg, hh⟩
  · rw [objGet_absent hg]
    exact hh
  · rcases hv : dec c with m | v
    · rw [objGet_err hg hv]
      simp [purge_handles, closeHandle, hh]
    · rw [objGet_ok hg hv] at h
      cases h

theorem objGet_handles_some {α : Type} {dec : String → Except String α}
    {d : Duration} {id : String} {w : World} {v : α}
    (h : (ObjectCache.get dec d id w).1 = some v) :
    ((ObjectCache.get dec d id w).2).openHandles = w.openHandles + 1 := by
  rcases getf_split d ObjectCache.fnsuffix id w with ⟨w1, hg, hh⟩ | ⟨c, w1, hg, hh⟩
  · rw [objGet_absent hg] at h
    cases h
  · rcases hv : dec c with m | v'
    · rw [objGet_err hg hv] at h
      cases h
    · rw [objGet_ok hg hv]
      exact hh

/-- C10 counterexample: a `DocumentCache.get` whose parse succeeds returns
with the file handle it opened still open — the success path never closes
`fp` — so not every public operation closes every handle it opens. -/
theorem c10_leak_counterexample :
    (DocumentCache.get decAll (none, 0) "a" wDoc).1 = some "doc" ∧
      ((DocumentCache.get decAll (none, 0) "a" wDoc).2).openHandles =
        wDoc.openHandles + 1 :=
  ⟨rfl, rfl⟩

/-- C10 amended: `FileCache.get`, `put`, `purge`, `clear` and construction
close every handle they open on every exit path; the codec `get`s close
their handle whenever they return absent (including the purge-on-corruption
path), but a successful decode returns with the one handle the call opened
still open. -/
theorem c10_handle_discipline
    (d1 : Duration) (s1 i1 : String) (w1 : World)
    (s2 i2 b2 : String) (w2 : World)
    (s3 i3 : String) (w3 : World)
    (w4 w4' : World) (h4 : FileCache.clear w4 = .ok w4')
    (dur5 : List (String × Nat)) (ver5 : String) (w5 : World) (d5 : Duration) (w5' : World)
    (h5 : FileCache.init dur5 ver5 w5 = .ok (d5, w5'))
    {α₆ α₇ α₈ α₉ : Type}
    (dec6 : String → Except String α₆) (d6 : Duration) (i6 : String) (w6 : World)
    (h6 : (DocumentCache.get dec6 d6 i6 w6).1 = none)
    (dec7 : String → Except String α₇) (d7 : Duration) (i7 : String) (w7 : World) (v7 : α₇)
    (h7 : (DocumentCache.get dec7 d7 i7 w7).1 = some v7)
    (dec8 : String → Except String α₈) (d8 : Duration) (i8 : String) (w8 : World)
    (h8 : (ObjectCache.get dec8 d8 i8 w8).1 = none)
    (dec9 : String → Except String α₉) (d9 : Duration) (i9 : String) (w9 : World) (v9 : α₉)
    (h9 : (ObjectCache.get dec9 d9 i9 w9).1 = some v9) :
    ((FileCache.get d1 s1 i1 w1).2).openHandles = w1.openHandles ∧
    ((FileCache.put s2 i2 b2 w2).2).openHandles = w2.openHandles ∧
    (FileCache.purge s3 i3 w3).openHandles = w3.openHandles ∧
    w4'.openHandles = w4.openHandles ∧
    w5'.openHandles = w5.openHandles ∧
    ((DocumentCache.get dec6 d6 i6 w6).2).openHandles = w6.openHandles ∧
    ((DocumentCache.get dec7 d7 i7 w7).2).openHandles = w7.openHandles + 1 ∧
    ((ObjectCache.get dec8 d8 i8 w8).2).openHandles = w8.openHandles ∧
    ((ObjectCache.get dec9 d9 i9 w9).2).openHandles = w9.openHandles + 1 :=
  ⟨get_handles d1 s1 i1 w1, put_handles s2 i2 b2 w2, purge_handles s3 i3 w3,
    clearLoop_openHandles (listdir w4) w4 w4' h4, init_ok_handles h5,
    docGet_handles_none h6, docGet_handles_some h7,
    objGet_handles_none h8, objGet_handles_some h9⟩

/-- C10 amended, witness: concrete runs of each operation instantiate the
handle discipline, with the leak visible on the successful codec gets. -/
theorem c10_handle_discipline_witness :
    (FileCache.clear wMix = .ok wMixCleared ∧
      FileCache.init [("days", 1)] "0.6" wMarker = .ok ((some "days", 1), wMarker) ∧
      (DocumentCache.get decGarbage ((none : Option String), 0) "a" wGarbage).1 = none ∧
      (DocumentCache.get decAll ((none : Option String), 0) "a" wDoc).1 = some "doc" ∧
      (ObjectCache.get decGarbage ((none : Option String), 0) "a" wGarbage).1 = none ∧
      (ObjectCache.get decAll ((none : Option String), 0) "a" wObj).1 = some "obj") ∧
    (((FileCache.get ((none : Option String), 0) "gcf" "a" wMix).2).openHandles = wMix.openHandles ∧
      ((FileCache.put "gcf" "a" "data" wMarker).2).openHandles = wMarker.openHandles ∧
      (FileCache.purge "gcf" "a" wMix).openHandles = wMix.openHandles ∧
      wMixCleared.openHandles = wMix.openHandles ∧
      wMarker.openHandles = wMarker.openHandles ∧
      ((DocumentCache.get decGarbage ((none : Option String), 0) "a" wGarbage).2).openHandles = wGarbage.openHandles ∧
      ((DocumentCache.get decAll ((none : Option String), 0) "a" wDoc).2).openHandles = wDoc.openHandles + 1 ∧
      ((ObjectCache.get decGarbage ((none : Option String), 0) "a" wGarbage).2).openHandles = wGarbage.openHandles ∧
      ((ObjectCache.get decAll ((none : Option String), 0) "a" wObj).2).openHandles = wObj.openHandles + 1) :=
  ⟨⟨by decide, by decide, by decide, by decide, by decide, by decide⟩,
    c10_handle_discipline ((none : Option String), 0) "gcf" "a" wMix "gcf" "a" "data" wMarker
      "gcf" "a" wMix wMix wMixCleared (by decide)
      [("days", 1)] "0.6" wMarker ((some "days", 1) : Duration) wMarker (by decide)
      decGarbage ((none : Option String), 0) "a" wGarbage (by decide)
      decAll ((none : Option String), 0) "a" wDoc "doc" (by decide)
      decGarbage ((none : Option String), 0) "a" wGarbage (by decide)
      decAll ((none : Option String), 0) "a" wObj "obj" (by decide)⟩

/-- C1 (code bug): a `FileCache` constructed with the documented duration
unit `months` (value 1) breaks the put-then-get round trip: the put stores
the bytes, but `datetime.timedelta` rejects the `months` keyword, `_getf`
swallows the `TypeError`, and the immediately following get reports absent
even though the backing file holds the stored bytes. -/
theorem c1_roundtrip_months_bug :
    FileCache.init [("months", 1)] "0.6" wMarker = .ok ((some "months", 1), wMarker) ∧
      (FileCache.put FileCache.fnsuffix "myid" "data" wMarker).1 = "data" ∧
      fsLookup ((FileCache.put FileCache.fnsuffix "myid" "data" wMarker).2).files
        (cacheFileName "myid" FileCache.fnsuffix) =
        some ⟨"suds-myid.gcf", false, "data", 1000⟩ ∧
      (FileCache.get (some "months", 1) FileCache.fnsuffix "myid"
        (FileCache.put FileCache.fnsuffix "myid" "data" wMarker).2).1 = none :=
  ⟨rfl, rfl, by decide, by decide⟩
